import Mathlib

/-!
Verification of the deviation-score pipeline of `pychromvar/compute_deviations.py`.

The embedding works over exact rationals (`ℚ`) for the matrix arithmetic; the
only place the code's floating-point behaviour is semantically visible is where
IEEE division by zero produces NaN/±Inf, which we model explicitly with the
`FVal` type (finite value, +Inf, -Inf, NaN) together with the IEEE rule for
dividing a finite value by a finite value.  Standard deviations involve a real
square root, so the aggregation/normalization step lives in `ℝ`.

Index conventions: a matrix of shape (m, n) is a function `Fin m → Fin n → ℚ`;
`_compute_deviations` is generic in its row index type `ι`, mirroring the fact
that `numpy.dot` is shape-generic in the leading dimension (a chunk of rows is
passed as a function on a subtype of row indices).
-/

/-- IEEE-style value: a finite number, positive/negative infinity, or NaN. -/
inductive FVal (α : Type) where
  | num (x : α) : FVal α
  | posInf : FVal α
  | negInf : FVal α
  | nan : FVal α
  deriving DecidableEq

/-- IEEE division of a finite value by a finite value: a nonzero finite value
divided by zero gives a signed infinity, zero divided by zero gives NaN, and a
nonzero divisor gives the exact quotient. -/
def fdiv {α : Type} [LinearOrderedField α] (x y : α) : FVal α :=
  if y = 0 then
    (if x = 0 then FVal.nan else if 0 < x then FVal.posInf else FVal.negInf)
  else FVal.num (x / y)

/-- Extract the finite value of an `FVal`, defaulting to 0.  Used only where a
separate lemma shows the non-finite cases cannot occur (after the GPU kernel's
`out[expected == 0] = 0` masking, every entry is finite). -/
def FVal.toQ : FVal ℚ → ℚ
  | FVal.num x => x
  | _ => 0

/-- `observed = count.dot(motif_match)` (shared by both deviation variants). -/
def observedMat {ι : Type} {nr nf : ℕ} (count : ι → Fin nr → ℚ)
    (motif_match : Fin nr → Fin nf → ℚ) : ι → Fin nf → ℚ :=
  fun i f => ∑ r, count i r * motif_match r f

/-- `expected = expectation_obs.dot(expectation_var.dot(motif_match))`: the
inner product `expectation_var · motif_match` (shape (1, n_features)) is formed
first, then scaled by the per-row `expectation_obs` column. -/
def expectedMat {ι : Type} {nr nf : ℕ} (expectation_obs : ι → ℚ)
    (expectation_var : Fin nr → ℚ) (motif_match : Fin nr → Fin nf → ℚ) :
    ι → Fin nf → ℚ :=
  fun i f => expectation_obs i * (∑ r, expectation_var r * motif_match r f)

/-- Host-memory deviation primitive `_compute_deviations`:
`np.divide(observed - expected, expected, out=zeros, where=expected != 0)` —
entries with `expected == 0` keep the zero initialization of `out`. -/
def _compute_deviations {ι : Type} {nr nf : ℕ}
    (motif_match : Fin nr → Fin nf → ℚ) (count : ι → Fin nr → ℚ)
    (expectation_obs : ι → ℚ) (expectation_var : Fin nr → ℚ) :
    ι → Fin nf → ℚ :=
  fun i f =>
    if expectedMat expectation_obs expectation_var motif_match i f = 0 then 0
    else (observedMat count motif_match i f -
          expectedMat expectation_obs expectation_var motif_match i f) /
         expectedMat expectation_obs expectation_var motif_match i f

/-- Accelerator deviation primitive `_compute_deviations_gpu`:
`torch.div(observed - expected, expected, out=out)` evaluates the IEEE
division everywhere, then `out[expected == 0] = 0` overwrites exactly the
entries whose divisor was zero with the finite value 0. -/
def _compute_deviations_gpu {ι : Type} {nr nf : ℕ}
    (motif_match : Fin nr → Fin nf → ℚ) (count : ι → Fin nr → ℚ)
    (expectation_obs : ι → ℚ) (expectation_var : Fin nr → ℚ) :
    ι → Fin nf → FVal ℚ :=
  fun i f =>
    if expectedMat expectation_obs expectation_var motif_match i f = 0 then
      FVal.num 0
    else
      fdiv (observedMat count motif_match i f -
            expectedMat expectation_obs expectation_var motif_match i f)
           (expectedMat expectation_obs expectation_var motif_match i f)

/-- `compute_expectation`: returns `(b, a)` where `a = count.sum(0)` scaled by
`a /= a.sum()` (per-region share of total signal) and `b = count.sum(1)`
(per-cell total).  The call site unpacks them as
`expectation_obs, expectation_var = compute_expectation(count)`. -/
def compute_expectation {nc nr : ℕ} (count : Fin nc → Fin nr → ℚ) :
    (Fin nc → ℚ) × (Fin nr → ℚ) :=
  ((fun i => ∑ j, count i j),
   (fun j => (∑ i, count i j) / (∑ j' : Fin nr, ∑ i' : Fin nc, count i' j')))

/-- C1: in both deviation primitives, an entry whose expected value is zero is
hard-zeroed (no NaN/Inf escapes into the result), and an entry with nonzero
expected value equals `(observed - expected) / expected`. -/
theorem deviation_zero_guard {ι : Type} {nr nf : ℕ}
    (motif_match : Fin nr → Fin nf → ℚ) (count : ι → Fin nr → ℚ)
    (expectation_obs : ι → ℚ) (expectation_var : Fin nr → ℚ)
    (i : ι) (f : Fin nf) :
    (expectedMat expectation_obs expectation_var motif_match i f = 0 →
      _compute_deviations motif_match count expectation_obs expectation_var i f = 0 ∧
      _compute_deviations_gpu motif_match count expectation_obs expectation_var i f =
        FVal.num 0) ∧
    (expectedMat expectation_obs expectation_var motif_match i f ≠ 0 →
      _compute_deviations motif_match count expectation_obs expectation_var i f =
        (observedMat count motif_match i f -
         expectedMat expectation_obs expectation_var motif_match i f) /
        expectedMat expectation_obs expectation_var motif_match i f ∧
      _compute_deviations_gpu motif_match count expectation_obs expectation_var i f =
        FVal.num ((observedMat count motif_match i f -
          expectedMat expectation_obs expectation_var motif_match i f) /
          expectedMat expectation_obs expectation_var motif_match i f)) := by
  constructor
  · intro h
    simp [_compute_deviations, _compute_deviations_gpu, h]
  · intro h
    simp [_compute_deviations, _compute_deviations_gpu, h, fdiv]

/-- Concrete instantiation of `deviation_zero_guard`: a 2-region, 2-feature,
single-row example in which feature 0 has expected value 0 (entry hard-zeroed
on both paths) and feature 1 has expected value 2. -/
theorem deviation_zero_guard_witness :
    _compute_deviations ![![0, 1], ![1, 0]] ![![(3 : ℚ), 5]] (fun _ => 2) ![1, 0] 0 0 = 0 ∧
    _compute_deviations_gpu ![![0, 1], ![1, 0]] ![![(3 : ℚ), 5]] (fun _ => 2) ![1, 0] 0 0 =
      FVal.num 0 ∧
    _compute_deviations ![![0, 1], ![1, 0]] ![![(3 : ℚ), 5]] (fun _ => 2) ![1, 0] 0 1 =
      (observedMat ![![(3 : ℚ), 5]] ![![0, 1], ![1, 0]] 0 1 -
       expectedMat (fun _ => 2) ![1, 0] ![![0, 1], ![1, 0]] 0 1) /
      expectedMat (fun _ => 2) ![1, 0] ![![0, 1], ![1, 0]] 0 1 :=
  ⟨((deviation_zero_guard ![![0, 1], ![1, 0]] ![![(3 : ℚ), 5]] (fun _ => 2) ![1, 0]
      0 0).1 (by norm_num [expectedMat, Fin.sum_univ_succ])).1,
   ((deviation_zero_guard ![![0, 1], ![1, 0]] ![![(3 : ℚ), 5]] (fun _ => 2) ![1, 0]
      0 0).1 (by norm_num [expectedMat, Fin.sum_univ_succ])).2,
   ((deviation_zero_guard ![![0, 1], ![1, 0]] ![![(3 : ℚ), 5]] (fun _ => 2) ![1, 0]
      0 1).2 (by norm_num [expectedMat, Fin.sum_univ_succ])).1⟩

/-- C6: the accelerator-resident deviation primitive is pointwise equal to the
host-memory primitive (every accelerator entry is the finite number the host
path computes — exact arithmetic, so "up to floating-point rounding" is exact
equality), and both share the `expected = e_cell_chunk · (e_region · match)`
association: the row vector `e_region · match` is formed before scaling. -/
theorem gpu_cpu_equivalence {ι : Type} {nr nf : ℕ}
    (motif_match : Fin nr → Fin nf → ℚ) (count : ι → Fin nr → ℚ)
    (expectation_obs : ι → ℚ) (expectation_var : Fin nr → ℚ)
    (i : ι) (f : Fin nf) :
    _compute_deviations_gpu motif_match count expectation_obs expectation_var i f =
      FVal.num (_compute_deviations motif_match count expectation_obs expectation_var i f) ∧
    expectedMat expectation_obs expectation_var motif_match i f =
      expectation_obs i * (∑ r, expectation_var r * motif_match r f) := by
  refine ⟨?_, rfl⟩
  by_cases h : expectedMat expectation_obs expectation_var motif_match i f = 0
  · simp [_compute_deviations, _compute_deviations_gpu, h]
  · simp [_compute_deviations, _compute_deviations_gpu, h, fdiv]

/-- Row-range boundaries produced by `adata.chunked_X(chunk_size)`: the j-th
chunk covers rows `[j*k, min((j+1)*k, n))`, for `j` ranging over the
`ceil(n/k)` chunk indices (`range(0, n, k)` in Python). -/
def chunkList (n k : ℕ) : List (ℕ × ℕ) :=
  (List.range ((n + k - 1) / k)).map (fun j => (j * k, min ((j + 1) * k) n))

/-- Row indices lying in the chunk `p = (start, end)`: the index set of the
slice `X[start:end]`. -/
def RowSlice (nc : ℕ) (p : ℕ × ℕ) : Type :=
  {i : Fin nc // p.1 ≤ (i : ℕ) ∧ (i : ℕ) < p.2}

/-- The chunk `X[start:end]` of a count matrix, as a matrix over the slice's
own row-index set. -/
def sliceCount {nc nr : ℕ} (X : Fin nc → Fin nr → ℚ) (p : ℕ × ℕ) :
    RowSlice nc p → Fin nr → ℚ :=
  fun x => X x.val

/-- The slice `expectation_obs[start:end]` of the per-cell expectation. -/
def sliceVec {nc : ℕ} (e : Fin nc → ℚ) (p : ℕ × ℕ) : RowSlice nc p → ℚ :=
  fun x => e x.val

/-- The deviation primitive selected by the `gpu` flag.  On the accelerator
path the masked `torch` result is read back as its finite value (the
pointwise equivalence of the two primitives shows every entry is finite). -/
def devPrim (gpu : Bool) {ι : Type} {nr nf : ℕ}
    (motif_match : Fin nr → Fin nf → ℚ) (count : ι → Fin nr → ℚ)
    (expectation_obs : ι → ℚ) (expectation_var : Fin nr → ℚ) :
    ι → Fin nf → ℚ :=
  fun i f =>
    if gpu then
      (_compute_deviations_gpu motif_match count expectation_obs expectation_var i f).toQ
    else _compute_deviations motif_match count expectation_obs expectation_var i f

/-- One loop iteration writing
`obs_dev[start:end, :] = _compute_deviations((motif_match, X, expectation_obs[start:end], expectation_var))`
into the zero-initialized accumulator. -/
def applyChunk (gpu : Bool) {nc nr nf : ℕ} (X : Fin nc → Fin nr → ℚ)
    (motif_match : Fin nr → Fin nf → ℚ) (expectation_obs : Fin nc → ℚ)
    (expectation_var : Fin nr → ℚ) (acc : Fin nc → Fin nf → ℚ) (p : ℕ × ℕ) :
    Fin nc → Fin nf → ℚ :=
  fun i f =>
    if h : p.1 ≤ (i : ℕ) ∧ (i : ℕ) < p.2 then
      devPrim gpu motif_match (sliceCount X p) (sliceVec expectation_obs p)
        expectation_var ⟨i, h⟩ f
    else acc i f

/-- `motif_match[bg_peaks[:, b], :]`: the feature-match matrix with row `r`
replaced by the row of the background region `bg_peaks[r, b]`. -/
def bgMotifMatch {nr nf nb : ℕ} (motif_match : Fin nr → Fin nf → ℚ)
    (bg_peaks : Fin nr → Fin nb → Fin nr) (b : Fin nb) : Fin nr → Fin nf → ℚ :=
  fun r f => motif_match (bg_peaks r b) f

/-- One loop iteration writing, for every background sample `b`,
`bg_dev[b, start:end, :] = _compute_deviations((bg_motif_match, X, expectation_obs[start:end], expectation_var))`. -/
def applyChunkBg (gpu : Bool) {nc nr nf nb : ℕ} (X : Fin nc → Fin nr → ℚ)
    (motif_match : Fin nr → Fin nf → ℚ) (bg_peaks : Fin nr → Fin nb → Fin nr)
    (expectation_obs : Fin nc → ℚ) (expectation_var : Fin nr → ℚ)
    (acc : Fin nb → Fin nc → Fin nf → ℚ) (p : ℕ × ℕ) :
    Fin nb → Fin nc → Fin nf → ℚ :=
  fun b i f =>
    if h : p.1 ≤ (i : ℕ) ∧ (i : ℕ) < p.2 then
      devPrim gpu (bgMotifMatch motif_match bg_peaks b) (sliceCount X p)
        (sliceVec expectation_obs p) expectation_var ⟨i, h⟩ f
    else acc b i f

/-- The observed-deviation accumulator after the full chunk loop (initialized
with `np.zeros` / `torch.zeros`). -/
def obs_dev_run (gpu : Bool) {nc nr nf : ℕ} (chunk_size : ℕ)
    (X : Fin nc → Fin nr → ℚ) (motif_match : Fin nr → Fin nf → ℚ)
    (expectation_obs : Fin nc → ℚ) (expectation_var : Fin nr → ℚ) :
    Fin nc → Fin nf → ℚ :=
  (chunkList nc chunk_size).foldl
    (applyChunk gpu X motif_match expectation_obs expectation_var) (fun _ _ => 0)

/-- The background-deviation accumulator after the full chunk loop. -/
def bg_dev_run (gpu : Bool) {nc nr nf nb : ℕ} (chunk_size : ℕ)
    (X : Fin nc → Fin nr → ℚ) (motif_match : Fin nr → Fin nf → ℚ)
    (bg_peaks : Fin nr → Fin nb → Fin nr) (expectation_obs : Fin nc → ℚ)
    (expectation_var : Fin nr → ℚ) : Fin nb → Fin nc → Fin nf → ℚ :=
  (chunkList nc chunk_size).foldl
    (applyChunkBg gpu X motif_match bg_peaks expectation_obs expectation_var)
    (fun _ _ _ => 0)

/-- Arithmetic mean over the background-sample axis
(`np.mean(bg_dev, axis=0)` / `torch.mean(bg_dev, axis=0)` at one (cell,
feature) position). -/
def mean_samples {nb : ℕ} (xs : Fin nb → ℚ) : ℚ :=
  (∑ b, xs b) / (nb : ℚ)

/-- Population variance (divide by `n`), the square of what
`np.std(bg_dev, axis=0)` computes. -/
def pop_variance {nb : ℕ} (xs : Fin nb → ℚ) : ℚ :=
  (∑ b, (xs b - mean_samples xs) ^ 2) / (nb : ℚ)

/-- `np.std(bg_dev, axis=0)` at one (cell, feature) position: the population
standard deviation (no degrees-of-freedom correction). -/
noncomputable def np_std {nb : ℕ} (xs : Fin nb → ℚ) : ℝ :=
  Real.sqrt ((pop_variance xs : ℚ) : ℝ)

/-- `torch.std(bg_dev, axis=0)` squared: torch's default is the *unbiased*
sample variance, dividing by `n - 1`; with a single sample this is the IEEE
quotient `0 / 0 = NaN`. -/
def torch_var {nb : ℕ} (xs : Fin nb → ℚ) : FVal ℚ :=
  fdiv (∑ b, (xs b - mean_samples xs) ^ 2) ((nb : ℚ) - 1)

/-- Square root on IEEE-style values (`sqrt(+inf) = +inf`, `sqrt` of NaN or of
`-inf` is NaN). -/
noncomputable def fvalSqrt : FVal ℚ → FVal ℝ
  | FVal.num x => FVal.num (Real.sqrt ((x : ℚ) : ℝ))
  | FVal.posInf => FVal.posInf
  | FVal.negInf => FVal.nan
  | FVal.nan => FVal.nan

/-- `torch.std(bg_dev, axis=0)` at one (cell, feature) position. -/
noncomputable def torch_std {nb : ℕ} (xs : Fin nb → ℚ) : FVal ℝ :=
  fvalSqrt (torch_var xs)

/-- Division of a finite value by an IEEE-style value (a finite value divided
by an infinity is zero; by NaN is NaN). -/
noncomputable def fdivF (x : ℝ) : FVal ℝ → FVal ℝ
  | FVal.num y => fdiv x y
  | FVal.nan => FVal.nan
  | FVal.posInf => FVal.num 0
  | FVal.negInf => FVal.num 0

/-- Largest finite `float32` value, `(2 - 2^-23) * 2^127 = (2^24 - 1) * 2^104`
(numpy's `finfo(float32).max = 3.4028235e38`). -/
def f32_max : ℚ := (2 ^ 24 - 1) * 2 ^ 104

/-- `np.dev = np.nan_to_num(dev, 0)`: the second positional argument of
`np.nan_to_num` is `copy`, so this call replaces NaN by `0.0` and ±Inf by the
**largest finite float32 values** (the `posinf`/`neginf` arguments keep their
defaults), not by zero. -/
noncomputable def nan_to_num : FVal ℝ → ℝ
  | FVal.num x => x
  | FVal.nan => 0
  | FVal.posInf => ((f32_max : ℚ) : ℝ)
  | FVal.negInf => -((f32_max : ℚ) : ℝ)

/-- Host-path aggregation `dev = (obs_dev - np.mean(bg_dev, 0)) / np.std(bg_dev, 0)`
followed by `np.nan_to_num(dev, 0)`. -/
noncomputable def normalize_cpu {nc nf nb : ℕ} (obs_dev : Fin nc → Fin nf → ℚ)
    (bg_dev : Fin nb → Fin nc → Fin nf → ℚ) : Fin nc → Fin nf → ℝ :=
  fun c f =>
    nan_to_num (fdiv (((obs_dev c f - mean_samples (fun b => bg_dev b c f) : ℚ)) : ℝ)
      (np_std (fun b => bg_dev b c f)))

/-- Accelerator-path aggregation
`dev = (obs_dev - torch.mean(bg_dev, 0)) / torch.std(bg_dev, 0)` followed by
`np.nan_to_num(dev, 0)` after the copy back to host memory. -/
noncomputable def normalize_gpu {nc nf nb : ℕ} (obs_dev : Fin nc → Fin nf → ℚ)
    (bg_dev : Fin nb → Fin nc → Fin nf → ℚ) : Fin nc → Fin nf → ℝ :=
  fun c f =>
    nan_to_num (fdivF (((obs_dev c f - mean_samples (fun b => bg_dev b c f) : ℚ)) : ℝ)
      (torch_std (fun b => bg_dev b c f)))

/-- The whole numeric pipeline of `compute_deviations` after input validation:
expectation, chunked observed/background deviation loop, aggregation and
normalization.  `n_jobs` is accepted (as in the Python signature) and never
read. -/
noncomputable def compute_deviations_run {nc nr nf nb : ℕ} (gpu : Bool)
    (n_jobs : ℤ) (chunk_size : ℕ) (X : Fin nc → Fin nr → ℚ)
    (motif_match : Fin nr → Fin nf → ℚ) (bg_peaks : Fin nr → Fin nb → Fin nr) :
    Fin nc → Fin nf → ℝ :=
  let e := compute_expectation X
  let obs_dev := obs_dev_run gpu chunk_size X motif_match e.1 e.2
  let bg_dev := bg_dev_run gpu chunk_size X motif_match bg_peaks e.1 e.2
  if gpu then normalize_gpu obs_dev bg_dev else normalize_cpu obs_dev bg_dev

/-- Membership in `chunkList`: every chunk is the j-th of `ceil(n/k)` ranges. -/
lemma mem_chunkList_iff {n k : ℕ} {p : ℕ × ℕ} :
    p ∈ chunkList n k ↔
      ∃ j, j < (n + k - 1) / k ∧ p = (j * k, min ((j + 1) * k) n) := by
  simp [chunkList, List.mem_map, List.mem_range, eq_comm]

/-- With a positive chunk size and at least one row, the number of chunks is
`(n - 1) / k + 1`. -/
lemma chunkCount_eq {n k : ℕ} (hk : 0 < k) (hn : 0 < n) :
    (n + k - 1) / k = (n - 1) / k + 1 := by
  have h : n + k - 1 = (n - 1) + k := by omega
  rw [h, Nat.add_div_right _ hk]

/-- Every row `r < n` lies in at least one chunk of `chunkList n k`. -/
lemma chunkList_covers {n k : ℕ} (hk : 0 < k) {r : ℕ} (hr : r < n) :
    ∃ p ∈ chunkList n k, p.1 ≤ r ∧ r < p.2 := by
  refine ⟨(r / k * k, min ((r / k + 1) * k) n), ?_, Nat.div_mul_le_self r k, ?_⟩
  · rw [mem_chunkList_iff]
    refine ⟨r / k, ?_, rfl⟩
    rw [chunkCount_eq hk (lt_of_le_of_lt (Nat.zero_le r) hr)]
    have h1 : r / k ≤ (n - 1) / k := Nat.div_le_div_right (by omega)
    omega
  · refine lt_min ?_ hr
    have h1 := Nat.div_add_mod r k
    have h2 : r % k < k := Nat.mod_lt _ hk
    rw [Nat.mul_comm] at h1
    have h3 : r < r / k * k + k := by omega
    calc r < r / k * k + k := h3
    _ = (r / k + 1) * k := by ring

/-- Every row lies in at most one chunk of `chunkList n k`. -/
lemma chunkList_unique {n k : ℕ} {p q : ℕ × ℕ} (hp : p ∈ chunkList n k)
    (hq : q ∈ chunkList n k) {r : ℕ} (hrp : p.1 ≤ r ∧ r < p.2)
    (hrq : q.1 ≤ r ∧ r < q.2) : p = q := by
  rw [mem_chunkList_iff] at hp hq
  obtain ⟨j1, hj1, rfl⟩ := hp
  obtain ⟨j2, hj2, rfl⟩ := hq
  have e1 : r / k = j1 :=
    Nat.div_eq_of_lt_le hrp.1 (lt_of_lt_of_le hrp.2 (min_le_left _ _))
  have e2 : r / k = j2 :=
    Nat.div_eq_of_lt_le hrq.1 (lt_of_lt_of_le hrq.2 (min_le_left _ _))
  rw [e1] at e2
  rw [e2]

/-- Value of the observed-deviation accumulator after folding any list of
chunk writes: a covered row holds the primitive's value for that row, an
uncovered row keeps the accumulator's previous value. -/
lemma foldl_applyChunk_apply (gpu : Bool) {nc nr nf : ℕ}
    (X : Fin nc → Fin nr → ℚ) (motif_match : Fin nr → Fin nf → ℚ)
    (expectation_obs : Fin nc → ℚ) (expectation_var : Fin nr → ℚ)
    (L : List (ℕ × ℕ)) (init : Fin nc → Fin nf → ℚ) (i : Fin nc) (f : Fin nf) :
    (L.foldl (applyChunk gpu X motif_match expectation_obs expectation_var) init) i f =
      if ∃ p ∈ L, p.1 ≤ (i : ℕ) ∧ (i : ℕ) < p.2 then
        devPrim gpu motif_match X expectation_obs expectation_var i f
      else init i f := by
  induction L generalizing init with
  | nil => simp
  | cons p L ih =>
    rw [List.foldl_cons, ih]
    by_cases hL : ∃ q ∈ L, q.1 ≤ (i : ℕ) ∧ (i : ℕ) < q.2
    · rw [if_pos hL, if_pos]
      obtain ⟨q, hqL, hq⟩ := hL
      exact ⟨q, List.mem_cons_of_mem _ hqL, hq⟩
    · rw [if_neg hL]
      by_cases hp : p.1 ≤ (i : ℕ) ∧ (i : ℕ) < p.2
      · have hval : applyChunk gpu X motif_match expectation_obs expectation_var
            init p i f =
            devPrim gpu motif_match X expectation_obs expectation_var i f := by
          rw [applyChunk, dif_pos hp]
          rfl
        rw [hval, if_pos ⟨p, List.mem_cons_self _ _, hp⟩]
      · have hval : applyChunk gpu X motif_match expectation_obs expectation_var
            init p i f = init i f := by
          rw [applyChunk, dif_neg hp]
        rw [hval, if_neg]
        rintro ⟨q, hqmem, hq⟩
        rcases List.mem_cons.mp hqmem with h | h
        · exact hp (h ▸ hq)
        · exact hL ⟨q, h, hq⟩

/-- Value of the background-deviation accumulator after folding any list of
chunk writes (each chunk writes all background samples' slices). -/
lemma foldl_applyChunkBg_apply (gpu : Bool) {nc nr nf nb : ℕ}
    (X : Fin nc → Fin nr → ℚ) (motif_match : Fin nr → Fin nf → ℚ)
    (bg_peaks : Fin nr → Fin nb → Fin nr) (expectation_obs : Fin nc → ℚ)
    (expectation_var : Fin nr → ℚ) (L : List (ℕ × ℕ))
    (init : Fin nb → Fin nc → Fin nf → ℚ) (b : Fin nb) (i : Fin nc) (f : Fin nf) :
    (L.foldl (applyChunkBg gpu X motif_match bg_peaks expectation_obs expectation_var)
      init) b i f =
      if ∃ p ∈ L, p.1 ≤ (i : ℕ) ∧ (i : ℕ) < p.2 then
        devPrim gpu (bgMotifMatch motif_match bg_peaks b) X expectation_obs
          expectation_var i f
      else init b i f := by
  induction L generalizing init with
  | nil => simp
  | cons p L ih =>
    rw [List.foldl_cons, ih]
    by_cases hL : ∃ q ∈ L, q.1 ≤ (i : ℕ) ∧ (i : ℕ) < q.2
    · rw [if_pos hL, if_pos]
      obtain ⟨q, hqL, hq⟩ := hL
      exact ⟨q, List.mem_cons_of_mem _ hqL, hq⟩
    · rw [if_neg hL]
      by_cases hp : p.1 ≤ (i : ℕ) ∧ (i : ℕ) < p.2
      · have hval : applyChunkBg gpu X motif_match bg_peaks expectation_obs
            expectation_var init p b i f =
            devPrim gpu (bgMotifMatch motif_match bg_peaks b) X expectation_obs
              expectation_var i f := by
          rw [applyChunkBg, dif_pos hp]
          rfl
        rw [hval, if_pos ⟨p, List.mem_cons_self _ _, hp⟩]
      · have hval : applyChunkBg gpu X motif_match bg_peaks expectation_obs
            expectation_var init p b i f = init b i f := by
          rw [applyChunkBg, dif_neg hp]
        rw [hval, if_neg]
        rintro ⟨q, hqmem, hq⟩
        rcases List.mem_cons.mp hqmem with h | h
        · exact hp (h ▸ hq)
        · exact hL ⟨q, h, hq⟩

/-- With a positive chunk size, the chunked observed-deviation loop fills the
whole accumulator with the unchunked primitive's values. -/
lemma obs_dev_run_eq (gpu : Bool) {nc nr nf : ℕ} {k : ℕ} (hk : 0 < k)
    (X : Fin nc → Fin nr → ℚ) (motif_match : Fin nr → Fin nf → ℚ)
    (expectation_obs : Fin nc → ℚ) (expectation_var : Fin nr → ℚ) :
    obs_dev_run gpu k X motif_match expectation_obs expectation_var =
      devPrim gpu motif_match X expectation_obs expectation_var := by
  funext i f
  rw [obs_dev_run, foldl_applyChunk_apply, if_pos (chunkList_covers hk i.isLt)]

/-- With a positive chunk size, the chunked background-deviation loop fills
the whole tensor with the unchunked primitive's values for each sample. -/
lemma bg_dev_run_eq (gpu : Bool) {nc nr nf nb : ℕ} {k : ℕ} (hk : 0 < k)
    (X : Fin nc → Fin nr → ℚ) (motif_match : Fin nr → Fin nf → ℚ)
    (bg_peaks : Fin nr → Fin nb → Fin nr) (expectation_obs : Fin nc → ℚ)
    (expectation_var : Fin nr → ℚ) :
    bg_dev_run gpu k X motif_match bg_peaks expectation_obs expectation_var =
      fun b => devPrim gpu (bgMotifMatch motif_match bg_peaks b) X
        expectation_obs expectation_var := by
  funext b i f
  rw [bg_dev_run, foldl_applyChunkBg_apply, if_pos (chunkList_covers hk i.isLt)]

/-- C7: with any two positive chunk sizes the pipeline returns identical
output matrices (exact arithmetic, so "within floating-point tolerance" is
exact equality): chunking changes only working-set size, never semantics. -/
theorem chunk_invariance {nc nr nf nb : ℕ} (gpu : Bool) (n_jobs : ℤ)
    {k1 k2 : ℕ} (h1 : 0 < k1) (h2 : 0 < k2) (X : Fin nc → Fin nr → ℚ)
    (motif_match : Fin nr → Fin nf → ℚ) (bg_peaks : Fin nr → Fin nb → Fin nr) :
    compute_deviations_run gpu n_jobs k1 X motif_match bg_peaks =
      compute_deviations_run gpu n_jobs k2 X motif_match bg_peaks := by
  simp only [compute_deviations_run]
  rw [obs_dev_run_eq gpu h1, obs_dev_run_eq gpu h2,
      bg_dev_run_eq gpu h1, bg_dev_run_eq gpu h2]

/-- Concrete instantiation of `chunk_invariance`: a 1-cell input computed with
chunk sizes 1 and 2 gives the same output. -/
theorem chunk_invariance_witness :
    0 < 1 ∧ 0 < 2 ∧
    compute_deviations_run false (-1) 1 (fun (_ : Fin 1) (_ : Fin 1) => (1 : ℚ))
        (fun (_ : Fin 1) (_ : Fin 1) => (1 : ℚ))
        (fun (_ : Fin 1) (_ : Fin 1) => (0 : Fin 1)) =
      compute_deviations_run false (-1) 2 (fun (_ : Fin 1) (_ : Fin 1) => (1 : ℚ))
        (fun (_ : Fin 1) (_ : Fin 1) => (1 : ℚ))
        (fun (_ : Fin 1) (_ : Fin 1) => (0 : Fin 1)) :=
  ⟨Nat.one_pos, by norm_num,
   chunk_invariance false (-1) Nat.one_pos (by norm_num) _ _ _⟩

/-- C10: the `n_jobs` parameter is accepted but never read, so any two values
produce identical outputs for every input and every other parameter. -/
theorem n_jobs_no_effect {nc nr nf nb : ℕ} (gpu : Bool) (a b : ℤ) (k : ℕ)
    (X : Fin nc → Fin nr → ℚ) (motif_match : Fin nr → Fin nf → ℚ)
    (bg_peaks : Fin nr → Fin nb → Fin nr) :
    compute_deviations_run gpu a k X motif_match bg_peaks =
      compute_deviations_run gpu b k X motif_match bg_peaks := rfl

/-- C2: evaluation at the background column `[0, 2]` (two background samples).
The host path's `np.std` is the population standard deviation and gives `1`;
the accelerator path's `torch.std` applies Bessel's correction (divide by
`n - 1`, its default) and gives `sqrt 2`, which differs — so the accelerator
path does *not* normalize by the population standard deviation. -/
theorem torch_std_not_population :
    np_std ![(0 : ℚ), 2] = 1 ∧
    torch_std ![(0 : ℚ), 2] = FVal.num (Real.sqrt 2) ∧
    torch_std ![(0 : ℚ), 2] ≠ FVal.num (np_std ![(0 : ℚ), 2]) := by
  have hmean : mean_samples ![(0 : ℚ), 2] = 1 := by
    norm_num [mean_samples, Fin.sum_univ_succ]
  have hvar : pop_variance ![(0 : ℚ), 2] = 1 := by
    norm_num [pop_variance, hmean, Fin.sum_univ_succ]
  have hnp : np_std ![(0 : ℚ), 2] = 1 := by
    rw [np_std, hvar]
    norm_num
  have htorch : torch_std ![(0 : ℚ), 2] = FVal.num (Real.sqrt 2) := by
    have hv : torch_var ![(0 : ℚ), 2] = FVal.num 2 := by
      rw [torch_var, hmean]
      norm_num [fdiv, Fin.sum_univ_succ]
    rw [torch_std, hv, fvalSqrt]
    norm_num
  refine ⟨hnp, htorch, ?_⟩
  rw [htorch, hnp]
  intro h
  have h2 : Real.sqrt 2 = 1 := by injection h
  exact (by norm_num : (2 : ℝ) ≠ 1) (Real.sqrt_eq_one.mp h2)

/-- C3 counterexample: one cell, one feature, one background sample with
`obs_dev = 1` and `bg_dev = 0`.  The background deviation is constant across
all samples (std = 0), yet the returned entry is the largest finite float32
value, not 0: `np.nan_to_num(dev, 0)` passes `0` as the `copy` argument, so
the `+inf` produced by `1 / 0` is mapped to `finfo(float32).max`, not to 0. -/
theorem nonfinite_entry_not_zeroed :
    normalize_cpu (fun (_ : Fin 1) (_ : Fin 1) => (1 : ℚ))
        (fun (_ : Fin 1) (_ : Fin 1) (_ : Fin 1) => (0 : ℚ)) 0 0 =
      ((f32_max : ℚ) : ℝ) ∧ ((f32_max : ℚ) : ℝ) ≠ 0 := by
  constructor
  · have hmean : mean_samples (fun _ : Fin 1 => (0 : ℚ)) = 0 := by
      norm_num [mean_samples]
    have hstd : np_std (fun _ : Fin 1 => (0 : ℚ)) = 0 := by
      rw [np_std]
      norm_num [pop_variance, hmean]
    rw [normalize_cpu]
    rw [hstd, hmean]
    norm_num [fdiv, nan_to_num]
  · norm_num [f32_max]

/-- C3 amended: in the final normalization, a NaN entry (zero background std
together with an observed deviation equal to the background mean) is replaced
by exactly 0, but an infinite entry (zero background std with observed
deviation different from the background mean) is replaced by the
largest-magnitude finite float32 value `±f32_max`, not by 0; with nonzero
background std the entry is the plain quotient. -/
theorem normalization_nonfinite_handling {nc nf nb : ℕ}
    (obs_dev : Fin nc → Fin nf → ℚ) (bg_dev : Fin nb → Fin nc → Fin nf → ℚ)
    (c : Fin nc) (f : Fin nf) :
    (np_std (fun b => bg_dev b c f) = 0 →
      (obs_dev c f = mean_samples (fun b => bg_dev b c f) →
        normalize_cpu obs_dev bg_dev c f = 0) ∧
      (mean_samples (fun b => bg_dev b c f) < obs_dev c f →
        normalize_cpu obs_dev bg_dev c f = ((f32_max : ℚ) : ℝ)) ∧
      (obs_dev c f < mean_samples (fun b => bg_dev b c f) →
        normalize_cpu obs_dev bg_dev c f = -((f32_max : ℚ) : ℝ))) ∧
    (np_std (fun b => bg_dev b c f) ≠ 0 →
      normalize_cpu obs_dev bg_dev c f =
        ((obs_dev c f - mean_samples (fun b => bg_dev b c f) : ℚ) : ℝ) /
          np_std (fun b => bg_dev b c f)) := by
  constructor
  · intro h
    refine ⟨?_, ?_, ?_⟩
    · intro heq
      rw [normalize_cpu, h, heq]
      norm_num [fdiv, nan_to_num]
    · intro hlt
      have hpos : (0 : ℝ) < ((obs_dev c f - mean_samples (fun b => bg_dev b c f) : ℚ) : ℝ) := by
        push_cast
        exact sub_pos.mpr (by exact_mod_cast hlt)
      rw [normalize_cpu, h]
      rw [fdiv, if_pos rfl, if_neg (by exact ne_of_gt hpos), if_pos hpos]
      rfl
    · intro hlt
      have hneg : ((obs_dev c f - mean_samples (fun b => bg_dev b c f) : ℚ) : ℝ) < 0 := by
        push_cast
        exact sub_neg.mpr (by exact_mod_cast hlt)
      rw [normalize_cpu, h]
      rw [fdiv, if_pos rfl, if_neg (by exact ne_of_lt hneg), if_neg (by exact not_lt.mpr hneg.le)]
      rfl
  · intro h
    rw [normalize_cpu, fdiv, if_neg h]
    rfl

/-- Concrete instantiation of `normalization_nonfinite_handling`: with a
constant background equal to the observed deviation (the NaN case), the
returned entry is exactly 0. -/
theorem normalization_nonfinite_handling_witness :
    np_std (fun _ : Fin 1 => (0 : ℚ)) = 0 ∧
    normalize_cpu (fun (_ : Fin 1) (_ : Fin 1) => (0 : ℚ))
      (fun (_ : Fin 1) (_ : Fin 1) (_ : Fin 1) => (0 : ℚ)) 0 0 = 0 :=
  ⟨by rw [np_std]; norm_num [pop_variance, mean_samples],
   ((normalization_nonfinite_handling (fun _ _ => 0) (fun _ _ _ => 0) 0 0).1
      (by rw [np_std]; norm_num [pop_variance, mean_samples])).1
     (by norm_num [mean_samples])⟩

/-- C5 counterexample: the all-zero count matrix is finite and non-negative,
yet its per-region expectation does not sum to 1 — `a /= a.sum()` divides by
zero (in NumPy the entries become NaN; in the exact model the quotient `0/0`
is 0), so the normalization property fails. -/
theorem expectation_sum_not_one_on_zero_matrix :
    (∑ j, (compute_expectation (fun (_ : Fin 1) (_ : Fin 1) => (0 : ℚ))).2 j) ≠ 1 := by
  norm_num [compute_expectation]

/-- C5 amended: for every count matrix that is non-negative **with nonzero
total count**, `e_region` is the column sum divided by the total and sums to
1, and `e_cell` is the row sum. -/
theorem compute_expectation_spec {nc nr : ℕ} (count : Fin nc → Fin nr → ℚ)
    (hnn : ∀ i j, 0 ≤ count i j)
    (htot : 0 < ∑ j' : Fin nr, ∑ i' : Fin nc, count i' j') :
    (∀ j, (compute_expectation count).2 j =
      (∑ i, count i j) / (∑ j' : Fin nr, ∑ i' : Fin nc, count i' j')) ∧
    (∑ j, (compute_expectation count).2 j) = 1 ∧
    (∀ i, (compute_expectation count).1 i = ∑ j, count i j) := by
  refine ⟨fun j => rfl, ?_, fun i => rfl⟩
  simp only [compute_expectation]
  rw [← Finset.sum_div]
  exact div_self (ne_of_gt htot)

/-- Concrete instantiation of `compute_expectation_spec` at the count matrix
`[[1, 3]]`. -/
theorem compute_expectation_spec_witness :
    (∀ i j, (0 : ℚ) ≤ (![![1, 3]] : Fin 1 → Fin 2 → ℚ) i j) ∧
    (∑ j, (compute_expectation (![![1, 3]] : Fin 1 → Fin 2 → ℚ)).2 j) = 1 :=
  ⟨by decide,
   (compute_expectation_spec ![![1, 3]] (by decide)
      (by norm_num [Fin.sum_univ_succ])).2.1⟩

/-- The 3-region × 2-feature match matrix of the end-to-end scenario. -/
def scenario_motif_match : Fin 3 → Fin 2 → ℚ := ![![1, 0], ![1, 1], ![0, 1]]

/-- The 2-cell × 3-region count matrix of the end-to-end scenario. -/
def scenario_X : Fin 2 → Fin 3 → ℚ := ![![4, 0, 0], ![0, 2, 2]]

/-- The single identity background sample of the end-to-end scenario. -/
def scenario_bg_peaks : Fin 3 → Fin 1 → Fin 3 := ![![0], ![1], ![2]]

/-- The identity background sample selects the original match matrix. -/
lemma scenario_bg_identity :
    bgMotifMatch scenario_motif_match scenario_bg_peaks 0 = scenario_motif_match := by
  funext r f
  fin_cases r <;> rfl

/-- The mean over a single sample is that sample. -/
lemma mean_samples_single (xs : Fin 1 → ℚ) : mean_samples xs = xs 0 := by
  simp [mean_samples]

/-- The population variance over a single sample is zero. -/
lemma pop_variance_single (xs : Fin 1 → ℚ) : pop_variance xs = 0 := by
  simp [pop_variance, mean_samples]

/-- With a single background sample equal to the observed deviation at a
position, the normalized output at that position is exactly 0 (the `0 / 0`
NaN is zeroed by `nan_to_num`). -/
lemma normalize_cpu_single_self {nc nf : ℕ} (obs_dev : Fin nc → Fin nf → ℚ)
    (bg_dev : Fin 1 → Fin nc → Fin nf → ℚ) (c : Fin nc) (f : Fin nf)
    (h : bg_dev 0 c f = obs_dev c f) :
    normalize_cpu obs_dev bg_dev c f = 0 := by
  simp only [normalize_cpu, np_std]
  rw [pop_variance_single, mean_samples_single, h]
  norm_num [fdiv, nan_to_num]

/-- C9: in the end-to-end scenario (match matrix `[[1,0],[1,1],[0,1]]`, count
matrix `[[4,0,0],[0,2,2]]`, single identity background sample), the observed
deviation of cell 0 equals the background deviation of cell 0 for every
feature, the standard deviation over the single background sample is 0, and
the returned row for cell 0 is 0 in every feature column. -/
theorem end_to_end_scenario :
    (∀ f : Fin 2,
      bg_dev_run false 10000 scenario_X scenario_motif_match scenario_bg_peaks
          (compute_expectation scenario_X).1 (compute_expectation scenario_X).2 0 0 f =
        obs_dev_run false 10000 scenario_X scenario_motif_match
          (compute_expectation scenario_X).1 (compute_expectation scenario_X).2 0 f) ∧
    (∀ f : Fin 2,
      np_std (fun b => bg_dev_run false 10000 scenario_X scenario_motif_match
        scenario_bg_peaks (compute_expectation scenario_X).1
        (compute_expectation scenario_X).2 b 0 f) = 0) ∧
    (∀ f : Fin 2,
      compute_deviations_run false (-1) 10000 scenario_X scenario_motif_match
        scenario_bg_peaks 0 f = 0) := by
  have hk : (0 : ℕ) < 10000 := by norm_num
  have hobs := obs_dev_run_eq false hk scenario_X scenario_motif_match
    (compute_expectation scenario_X).1 (compute_expectation scenario_X).2
  have hbg := bg_dev_run_eq false hk scenario_X scenario_motif_match scenario_bg_peaks
    (compute_expectation scenario_X).1 (compute_expectation scenario_X).2
  refine ⟨?_, ?_, ?_⟩
  · intro f
    simp only [hobs, hbg]
    rw [scenario_bg_identity]
  · intro f
    simp only [hbg]
    rw [np_std, pop_variance_single]
    norm_num
  · intro f
    simp only [compute_deviations_run, hobs, hbg]
    exact normalize_cpu_single_self _ _ 0 f (by rw [scenario_bg_identity])

/-- Membership in `chunkList` forces a positive chunk size and row count. -/
lemma chunkList_pos_of_mem {n k : ℕ} {p : ℕ × ℕ} (hp : p ∈ chunkList n k) :
    0 < k ∧ 0 < n := by
  rw [mem_chunkList_iff] at hp
  obtain ⟨j, hj, _⟩ := hp
  have hk : 0 < k := by
    rcases Nat.eq_zero_or_pos k with h0 | h
    · rw [h0, Nat.div_zero] at hj
      omega
    · exact h
  refine ⟨hk, ?_⟩
  rcases Nat.eq_zero_or_pos n with h0 | h
  · rw [h0] at hj
    have h1 : (0 + k - 1) / k = 0 := Nat.div_eq_of_lt (by omega)
    omega
  · exact h

/-- Every chunk range is nonempty and lies inside `[0, n)`. -/
lemma chunkList_bounds {n k : ℕ} {p : ℕ × ℕ} (hp : p ∈ chunkList n k) :
    p.1 < p.2 ∧ p.2 ≤ n := by
  obtain ⟨hk, hn⟩ := chunkList_pos_of_mem hp
  rw [mem_chunkList_iff] at hp
  obtain ⟨j, hj, rfl⟩ := hp
  refine ⟨lt_min ?_ ?_, min_le_right _ _⟩
  · exact Nat.mul_lt_mul_of_lt_of_le (Nat.lt_succ_self j) (le_refl k) hk
  · rw [chunkCount_eq hk hn] at hj
    have h1 : j ≤ (n - 1) / k := by omega
    have h2 : j * k ≤ (n - 1) / k * k := Nat.mul_le_mul_right k h1
    have h3 : (n - 1) / k * k ≤ n - 1 := Nat.div_mul_le_self _ _
    omega

/-- The chunk ranges are pairwise distinct. -/
lemma chunkList_nodup (n k : ℕ) : (chunkList n k).Nodup := by
  rcases Nat.eq_zero_or_pos k with hk | hk
  · rw [hk]
    simp [chunkList]
  · refine List.Nodup.map ?_ (List.nodup_range _)
    intro a b hab
    have h := congrArg Prod.fst hab
    simp only at h
    exact Nat.eq_of_mul_eq_mul_right hk h

/-- Consecutive chunk ranges are contiguous (`end = next start`) and strictly
increasing in their start row. -/
lemma chunkList_chain (n k : ℕ) :
    (chunkList n k).Chain' (fun p q => p.2 = q.1 ∧ p.1 < q.1) := by
  rw [chunkList, List.chain'_map]
  rcases hm : (n + k - 1) / k with _ | m
  · simp
  · rw [List.chain'_range_succ]
    intro j hj
    have hk : 0 < k := by
      rcases Nat.eq_zero_or_pos k with h0 | h
      · rw [h0, Nat.div_zero] at hm
        omega
      · exact h
    have hn : 0 < n := by
      rcases Nat.eq_zero_or_pos n with h0 | h
      · rw [h0] at hm
        have : (0 + k - 1) / k = 0 := Nat.div_eq_of_lt (by omega)
        omega
      · exact h
    have hmono : j * k < (j + 1) * k :=
      Nat.mul_lt_mul_of_lt_of_le (Nat.lt_succ_self j) (le_refl k) hk
    refine ⟨?_, by simpa using hmono⟩
    have hle : j + 1 ≤ (n - 1) / k := by
      rw [chunkCount_eq hk hn] at hm
      omega
    have h2 : (j + 1) * k ≤ (n - 1) / k * k := Nat.mul_le_mul_right k hle
    have h3 : (n - 1) / k * k ≤ n - 1 := Nat.div_mul_le_self _ _
    simp only [Nat.succ_eq_add_one]
    exact min_eq_left (by omega)

/-- With rows to process, the first chunk starts at row 0. -/
lemma chunkList_head {n k : ℕ} (hk : 0 < k) (hn : 0 < n) :
    (chunkList n k).head? = some (0, min k n) := by
  rw [chunkList, chunkCount_eq hk hn, List.range_succ_eq_map]
  simp

/-- A row is covered by some chunk exactly when it is a valid row index. -/
lemma chunkList_covers_iff {n k : ℕ} (hk : 0 < k) (r : ℕ) :
    (∃ p ∈ chunkList n k, p.1 ≤ r ∧ r < p.2) ↔ r < n := by
  constructor
  · rintro ⟨p, hpmem, _, hr2⟩
    exact lt_of_lt_of_le hr2 (chunkList_bounds hpmem).2
  · exact chunkList_covers hk

/-- Every valid row index lies in exactly one chunk. -/
lemma chunkList_exists_unique {n k : ℕ} (hk : 0 < k) {r : ℕ} (hr : r < n) :
    ∃! p, p ∈ chunkList n k ∧ p.1 ≤ r ∧ r < p.2 := by
  obtain ⟨p, hpmem, hpcont⟩ := chunkList_covers hk hr
  exact ⟨p, ⟨hpmem, hpcont⟩, fun q hq => chunkList_unique hq.1 hpmem hq.2 hpcont⟩

/-- The background-slice write events of a full run, in program order: for
each chunk (outer loop) and each background sample `b` (inner loop), the
event `(b, (start, end))` records the write of `bg_dev[b, start:end, :]`. -/
def writeList (n k nb : ℕ) : List (ℕ × ℕ × ℕ) :=
  (chunkList n k).flatMap (fun p => (List.range nb).map (fun b => (b, p)))

/-- A write event occurs exactly for the chunks of the run and the valid
sample indices. -/
lemma writeList_mem_iff {n k nb : ℕ} {w : ℕ × ℕ × ℕ} :
    w ∈ writeList n k nb ↔ w.2 ∈ chunkList n k ∧ w.1 < nb := by
  rcases w with ⟨b, p⟩
  rw [writeList, List.mem_flatMap]
  constructor
  · rintro ⟨q, hq, hw⟩
    rw [List.mem_map] at hw
    obtain ⟨b', hb', hw⟩ := hw
    rw [List.mem_range] at hb'
    cases hw
    exact ⟨hq, hb'⟩
  · rintro ⟨hp, hb⟩
    exact ⟨p, hp, List.mem_map.mpr ⟨b, List.mem_range.mpr hb, rfl⟩⟩

/-- Each `(background sample, row)` pair is written exactly once during a
full run. -/
lemma writeList_exactly_once {n k nb : ℕ} (hk : 0 < k) {b r : ℕ}
    (hb : b < nb) (hr : r < n) :
    ∃! w, w ∈ writeList n k nb ∧ w.1 = b ∧ w.2.1 ≤ r ∧ r < w.2.2 := by
  obtain ⟨p, ⟨hpmem, hpcont⟩, huniq⟩ := chunkList_exists_unique hk hr
  refine ⟨(b, p), ⟨writeList_mem_iff.mpr ⟨hpmem, hb⟩, rfl, hpcont⟩, ?_⟩
  rintro ⟨b', q⟩ ⟨hmem, hb', hq⟩
  obtain ⟨hqmem, _⟩ := writeList_mem_iff.mp hmem
  have hqp : q = p := huniq q ⟨hqmem, hq⟩
  simp only at hb'
  rw [hb', hqp]

/-- C8: a full run's chunk iteration covers `[0, n_cells)` exactly once via
non-overlapping, contiguous, monotonically increasing ranges starting at row
0; every `(background sample, chunk)` slice write happens exactly once; and
the final accumulators hold the computed deviation value at every position
(no slice is left at its zero fill unless that is the computed value). -/
theorem chunk_write_discipline (gpu : Bool) {nc nr nf nb : ℕ} {k : ℕ}
    (hk : 0 < k) (X : Fin nc → Fin nr → ℚ)
    (motif_match : Fin nr → Fin nf → ℚ) (bg_peaks : Fin nr → Fin nb → Fin nr)
    (expectation_obs : Fin nc → ℚ) (expectation_var : Fin nr → ℚ) :
    (chunkList nc k).Nodup ∧
    (chunkList nc k).Chain' (fun p q => p.2 = q.1 ∧ p.1 < q.1) ∧
    (∀ p ∈ chunkList nc k, p.1 < p.2 ∧ p.2 ≤ nc) ∧
    (0 < nc → (chunkList nc k).head? = some (0, min k nc)) ∧
    (∀ r : ℕ, (∃ p ∈ chunkList nc k, p.1 ≤ r ∧ r < p.2) ↔ r < nc) ∧
    (∀ r : ℕ, r < nc → ∃! p, p ∈ chunkList nc k ∧ p.1 ≤ r ∧ r < p.2) ∧
    (∀ b r : ℕ, b < nb → r < nc →
      ∃! w, w ∈ writeList nc k nb ∧ w.1 = b ∧ w.2.1 ≤ r ∧ r < w.2.2) ∧
    obs_dev_run gpu k X motif_match expectation_obs expectation_var =
      devPrim gpu motif_match X expectation_obs expectation_var ∧
    bg_dev_run gpu k X motif_match bg_peaks expectation_obs expectation_var =
      (fun b => devPrim gpu (bgMotifMatch motif_match bg_peaks b) X
        expectation_obs expectation_var) :=
  ⟨chunkList_nodup nc k,
   chunkList_chain nc k,
   fun _ hp => chunkList_bounds hp,
   fun hn => chunkList_head hk hn,
   fun r => chunkList_covers_iff hk r,
   fun _ hr => chunkList_exists_unique hk hr,
   fun _ _ hb hr => writeList_exactly_once hk hb hr,
   obs_dev_run_eq gpu hk X motif_match expectation_obs expectation_var,
   bg_dev_run_eq gpu hk X motif_match bg_peaks expectation_obs expectation_var⟩

/-- A 3-row constant count matrix used to instantiate
`chunk_write_discipline`. -/
def w8_X : Fin 3 → Fin 1 → ℚ := fun _ _ => 1

/-- A constant 1-region, 2-feature match matrix for the same instantiation. -/
def w8_motif_match : Fin 1 → Fin 2 → ℚ := fun _ _ => 1

/-- Two trivial background samples for the same instantiation. -/
def w8_bg_peaks : Fin 1 → Fin 2 → Fin 1 := fun _ _ => 0

/-- A constant per-cell expectation for the same instantiation. -/
def w8_e_obs : Fin 3 → ℚ := fun _ => 1

/-- A constant per-region expectation for the same instantiation. -/
def w8_e_var : Fin 1 → ℚ := fun _ => 1

/-- Concrete instantiation of `chunk_write_discipline`: 3 cells, chunk size 2,
2 background samples. -/
theorem chunk_write_discipline_witness :
    0 < 2 ∧
    ((chunkList 3 2).Nodup ∧
     (chunkList 3 2).Chain' (fun p q => p.2 = q.1 ∧ p.1 < q.1) ∧
     (∀ p ∈ chunkList 3 2, p.1 < p.2 ∧ p.2 ≤ 3) ∧
     (0 < 3 → (chunkList 3 2).head? = some (0, min 2 3)) ∧
     (∀ r : ℕ, (∃ p ∈ chunkList 3 2, p.1 ≤ r ∧ r < p.2) ↔ r < 3) ∧
     (∀ r : ℕ, r < 3 → ∃! p, p ∈ chunkList 3 2 ∧ p.1 ≤ r ∧ r < p.2) ∧
     (∀ b r : ℕ, b < 2 → r < 3 →
       ∃! w, w ∈ writeList 3 2 2 ∧ w.1 = b ∧ w.2.1 ≤ r ∧ r < w.2.2) ∧
     obs_dev_run false 2 w8_X w8_motif_match w8_e_obs w8_e_var =
       devPrim false w8_motif_match w8_X w8_e_obs w8_e_var ∧
     bg_dev_run false 2 w8_X w8_motif_match w8_bg_peaks w8_e_obs w8_e_var =
       (fun b => devPrim false (bgMotifMatch w8_motif_match w8_bg_peaks b)
         w8_X w8_e_obs w8_e_var)) :=
  ⟨by norm_num,
   chunk_write_discipline false (by norm_num) w8_X w8_motif_match w8_bg_peaks
     w8_e_obs w8_e_var⟩

/-- Presence flags for the auxiliary fields of the (external) data object that
`compute_deviations` reads: `varm['bg_peaks']`, `varm['motif_match']` and
`uns['motif_name']`. -/
structure AnnDataFields where
  has_bg_peaks : Bool
  has_motif_match : Bool
  has_motif_name : Bool

/-- The argument of `compute_deviations`: an AnnData object, a MuData object
(with or without an `atac` modality), or any other value. -/
inductive InputData where
  | anndata (a : AnnDataFields)
  | mudata (hasAtac : Bool) (atac : AnnDataFields)
  | other

/-- Python exceptions observable from the prologue of `compute_deviations`. -/
inductive PyError where
  | typeError (msg : String)
  | assertionError (msg : String)
  | keyError (key : String)
  deriving DecidableEq

/-- Externally visible computation stages of `compute_deviations`. -/
inductive Stage where
  | computeExpectation
  | deviationLoop
  | normalization
  deriving DecidableEq

/-- Control flow of `compute_deviations` on a (validated-or-not) AnnData
object, in source order: `assert "bg_peaks" in adata.varm_keys()` fires before
anything is computed; `compute_expectation` is then called; only afterwards is
`adata.varm['motif_match']` first read (raising `KeyError` when absent), then
`adata.uns['motif_name']` (idem); then the deviation loop and the
normalization run.  Returns the stages executed, in order, with the result. -/
def anndata_stages (a : AnnDataFields) : List Stage × Except PyError Unit :=
  if a.has_bg_peaks then
    (if a.has_motif_match then
      (if a.has_motif_name then
        ([Stage.computeExpectation, Stage.deviationLoop, Stage.normalization],
         Except.ok ())
      else ([Stage.computeExpectation], Except.error (PyError.keyError "motif_name")))
    else ([Stage.computeExpectation], Except.error (PyError.keyError "motif_match")))
  else
    ([], Except.error (PyError.assertionError
      "Cannot find background peaks in the input object, please first run get_bg_peaks!"))

/-- The `isinstance` dispatch of `compute_deviations`: an AnnData is used
directly, a MuData must carry an `atac` modality, anything else raises
`TypeError` before any computation. -/
def compute_deviations_stages (d : InputData) : List Stage × Except PyError Unit :=
  match d with
  | InputData.anndata a => anndata_stages a
  | InputData.mudata true a => anndata_stages a
  | InputData.mudata false _ =>
      ([], Except.error (PyError.typeError
        "Expected AnnData or MuData object with atac modality"))
  | InputData.other =>
      ([], Except.error (PyError.typeError
        "Expected AnnData or MuData object with atac modality"))

/-- C4 counterexample: an AnnData object that has background peaks but no
feature-match matrix.  The run does fail with an error naming the missing
field (`KeyError: motif_match`), but **not** before any computation: the
expectation stage has already executed when the missing matrix is first
accessed. -/
theorem missing_motif_match_fails_after_expectation :
    (compute_deviations_stages (InputData.anndata ⟨true, false, true⟩)).2 =
      Except.error (PyError.keyError "motif_match") ∧
    Stage.computeExpectation ∈
      (compute_deviations_stages (InputData.anndata ⟨true, false, true⟩)).1 := by
  constructor
  · rfl
  · simp [compute_deviations_stages, anndata_stages]

/-- C4 amended: a non-AnnData/MuData input and a MuData without `atac` raise
`TypeError` before any computation; a missing background-sample matrix raises
`AssertionError` before any computation; but a missing feature-match matrix
raises `KeyError` only **after** the expectation computation has run. -/
theorem input_validation :
    (∀ atac : AnnDataFields,
      (compute_deviations_stages (InputData.mudata false atac)).1 = [] ∧
      (compute_deviations_stages (InputData.mudata false atac)).2 =
        Except.error (PyError.typeError
          "Expected AnnData or MuData object with atac modality")) ∧
    ((compute_deviations_stages InputData.other).1 = [] ∧
     (compute_deviations_stages InputData.other).2 =
        Except.error (PyError.typeError
          "Expected AnnData or MuData object with atac modality")) ∧
    (∀ a : AnnDataFields, a.has_bg_peaks = false →
      (compute_deviations_stages (InputData.anndata a)).1 = [] ∧
      (compute_deviations_stages (InputData.anndata a)).2 =
        Except.error (PyError.assertionError
          "Cannot find background peaks in the input object, please first run get_bg_peaks!")) ∧
    (∀ a : AnnDataFields, a.has_bg_peaks = true → a.has_motif_match = false →
      (compute_deviations_stages (InputData.anndata a)).2 =
        Except.error (PyError.keyError "motif_match") ∧
      Stage.computeExpectation ∈
        (compute_deviations_stages (InputData.anndata a)).1) := by
  refine ⟨fun atac => ⟨rfl, rfl⟩, ⟨rfl, rfl⟩, ?_, ?_⟩
  · intro a h
    rcases a with ⟨bg, mm, mn⟩
    simp only at h
    subst h
    exact ⟨rfl, rfl⟩
  · intro a h1 h2
    rcases a with ⟨bg, mm, mn⟩
    simp only at h1 h2
    subst h1
    subst h2
    exact ⟨rfl, by simp [compute_deviations_stages, anndata_stages]⟩

/-- Concrete instantiation of `input_validation`: the missing-`bg_peaks`
assertion fires with no stage executed. -/
theorem input_validation_witness :
    (compute_deviations_stages (InputData.anndata ⟨false, true, true⟩)).1 = [] ∧
    (compute_deviations_stages (InputData.anndata ⟨false, true, true⟩)).2 =
      Except.error (PyError.assertionError
        "Cannot find background peaks in the input object, please first run get_bg_peaks!") :=
  input_validation.2.2.1 ⟨false, true, true⟩ rfl
